import Mathlib

/-!
Shallow embedding of the supadata-go client library (package `supadata`).

JSON response bodies are modelled by the inductive `JsonValue`; a raw HTTP
body is `Option JsonValue`, where `none` stands for bytes that are not valid
JSON (e.g. a plaintext gateway error page).  JSON numbers are modelled by
integers: none of the verified properties depends on fractional values, and
Go decodes any JSON number into its float64 fields.  Go's `encoding/json`
unmarshalling of the relevant struct types is mirrored field by field:
absent or `null` fields keep the zero value, type-mismatched fields make the
whole unmarshal fail, unknown keys are ignored, duplicate keys resolve to
the last occurrence.
-/

inductive JsonValue where
  | null
  | bool (b : Bool)
  | num (n : Int)
  | str (s : String)
  | arr (xs : List JsonValue)
  | obj (fs : List (String × JsonValue))

/-- Last occurrence of key `k` in a JSON object's field list (Go's decoder
lets later duplicate keys overwrite earlier ones). -/
def jfind (fs : List (String × JsonValue)) (k : String) : Option JsonValue :=
  ((fs.filter (fun p => p.1 == k)).getLast?).map (fun p => p.2)

def jHasKey (fs : List (String × JsonValue)) (k : String) : Bool :=
  fs.any (fun p => p.1 == k)

/-- Decode a `string`-typed struct field: absent or `null` yields the zero
value `""`, a JSON string yields itself, anything else is a type error. -/
def getStrField (fs : List (String × JsonValue)) (k : String) : Option String :=
  match jfind fs k with
  | none => some ""
  | some JsonValue.null => some ""
  | some (JsonValue.str s) => some s
  | some _ => none

/-- Decode a numeric struct field (Go `float64`/`int`): absent or `null`
yields 0, a JSON number yields itself, anything else is a type error. -/
def getNumField (fs : List (String × JsonValue)) (k : String) : Option Int :=
  match jfind fs k with
  | none => some 0
  | some JsonValue.null => some 0
  | some (JsonValue.num n) => some n
  | some _ => none

def decodeStrElem (j : JsonValue) : Option String :=
  match j with
  | JsonValue.null => some ""
  | JsonValue.str s => some s
  | _ => none

/-- Decode a `[]string` struct field: absent or `null` yields the nil slice,
an array of strings yields the list, anything else is a type error. -/
def getStrListField (fs : List (String × JsonValue)) (k : String) :
    Option (List String) :=
  match jfind fs k with
  | none => some []
  | some JsonValue.null => some []
  | some (JsonValue.arr xs) => xs.mapM decodeStrElem
  | some _ => none

/- ===== Error taxonomy (type ErrorIdentifier, type ErrorResponse) ===== -/

def InvalidRequest : String := "invalid-request"
def InternalError : String := "internal-error"
def Forbidden : String := "forbidden"
def Unauthorized : String := "unauthorized"
def UpgradeRequired : String := "upgrade-required"
def TranscriptUnavailable : String := "transcript-unavailable"
def NotFound : String := "not-found"
def LimitExceeded : String := "limit-exceeded"

/-- The eight defined error identifier constants. -/
def errorIdentifiers : List String :=
  [InvalidRequest, InternalError, Forbidden, Unauthorized, UpgradeRequired,
   TranscriptUnavailable, NotFound, LimitExceeded]

structure ErrorResponse where
  ErrorIdentifier : String
  Message : String
  Details : String
  DocumentationUrl : String
deriving DecidableEq, Repr

/-- Model of `json.Unmarshal(body, &errResp)` for `ErrorResponse`.  Succeeds on a JSON
object (fields `error`, `message`, `details`, `documentationUrl`, each a
string when present) and on JSON `null` (zero value); fails otherwise. -/
def unmarshalErrorResponse (j : JsonValue) : Option ErrorResponse :=
  match j with
  | JsonValue.null => some ⟨"", "", "", ""⟩
  | JsonValue.obj fs => do
      let e ← getStrField fs "error"
      let m ← getStrField fs "message"
      let d ← getStrField fs "details"
      let u ← getStrField fs "documentationUrl"
      pure ⟨e, m, d, u⟩
  | _ => none

/-- Model of `(e *ErrorResponse) Error()`. -/
def ErrorResponse.errString (e : ErrorResponse) : String :=
  e.ErrorIdentifier ++ ": " ++ e.Message

/- ===== HTTP exchange model and response resolution ===== -/

/-- A completed HTTP exchange: status code plus body.  `body = none` models a
body that is not valid JSON. -/
structure Response where
  StatusCode : Nat
  body : Option JsonValue

/-- Failure value returned by the client.  `typed` is an `*ErrorResponse`,
`generic` is a `fmt.Errorf` message, `decodeFailure` is an `encoding/json`
unmarshal error passed through to the caller. -/
inductive SupaError where
  | typed (e : ErrorResponse)
  | generic (msg : String)
  | decodeFailure
deriving DecidableEq, Repr

/-- Model of `handleRawResponse`: on status ≥ 400 decode the body as an
`ErrorResponse` (generic error on unmarshal failure), otherwise return the
raw body bytes. -/
def handleRawResponse (resp : Response) : Except SupaError (Option JsonValue) :=
  if resp.StatusCode ≥ 400 then
    match resp.body with
    | some j =>
        match unmarshalErrorResponse j with
        | some errResp => Except.error (SupaError.typed errResp)
        | none => Except.error (SupaError.generic
            ("request failed with status " ++ toString resp.StatusCode))
    | none => Except.error (SupaError.generic
        ("request failed with status " ++ toString resp.StatusCode))
  else
    Except.ok resp.body

/-- Model of `handleResponse[T]`: raw handling followed by unmarshalling the body into
the endpoint's success type, here abstracted as a decoder function. -/
def handleResponse {T : Type} (dec : JsonValue → Option T) (resp : Response) :
    Except SupaError T :=
  match handleRawResponse resp with
  | Except.error e => Except.error e
  | Except.ok none => Except.error SupaError.decodeFailure
  | Except.ok (some j) =>
      match dec j with
      | none => Except.error SupaError.decodeFailure
      | some t => Except.ok t

/- ===== Transcript types and the polymorphic sync/async decode ===== -/

structure TranscriptContent where
  Text : String
  Offset : Int
  Duration : Int
  Lang : String
deriving DecidableEq, Repr

structure SyncTranscript where
  Content : List TranscriptContent
  Lang : String
  AvailableLangs : List String
deriving DecidableEq, Repr

structure AsyncTranscript where
  JobId : String
deriving DecidableEq, Repr

structure Transcript where
  Sync : Option SyncTranscript
  Async : Option AsyncTranscript
deriving DecidableEq, Repr

def Transcript.IsAsync (r : Transcript) : Bool :=
  r.Async.isSome

def unmarshalTranscriptContent (j : JsonValue) : Option TranscriptContent :=
  match j with
  | JsonValue.null => some ⟨"", 0, 0, ""⟩
  | JsonValue.obj fs => do
      let t ← getStrField fs "text"
      let o ← getNumField fs "offset"
      let d ← getNumField fs "duration"
      let l ← getStrField fs "lang"
      pure ⟨t, o, d, l⟩
  | _ => none

def getContentField (fs : List (String × JsonValue)) (k : String) :
    Option (List TranscriptContent) :=
  match jfind fs k with
  | none => some []
  | some JsonValue.null => some []
  | some (JsonValue.arr xs) => xs.mapM unmarshalTranscriptContent
  | some _ => none

def unmarshalSyncTranscript (j : JsonValue) : Option SyncTranscript :=
  match j with
  | JsonValue.null => some ⟨[], "", []⟩
  | JsonValue.obj fs => do
      let c ← getContentField fs "content"
      let l ← getStrField fs "lang"
      let a ← getStrListField fs "availableLangs"
      pure ⟨c, l, a⟩
  | _ => none

def unmarshalAsyncTranscript (j : JsonValue) : Option AsyncTranscript :=
  match j with
  | JsonValue.null => some ⟨""⟩
  | JsonValue.obj fs => do
      let jid ← getStrField fs "jobId"
      pure ⟨jid⟩
  | _ => none

/-- Model of `json.Unmarshal(body, &raw)` for `map[string]json.RawMessage`: succeeds
exactly on a JSON object (or `null`, giving the nil map). -/
def unmarshalRawMap (j : JsonValue) :
    Option (List (String × JsonValue)) :=
  match j with
  | JsonValue.null => some []
  | JsonValue.obj fs => some fs
  | _ => none

/-- Response-resolution half of `(s *Supadata) Transcript`: probe the raw
body for a `jobId` key, then commit to the async or sync decode target. -/
def transcriptResponse (resp : Response) : Except SupaError Transcript :=
  match handleRawResponse resp with
  | Except.error e => Except.error e
  | Except.ok none => Except.error SupaError.decodeFailure
  | Except.ok (some j) =>
      match unmarshalRawMap j with
      | none => Except.error SupaError.decodeFailure
      | some raw =>
          if jHasKey raw "jobId" then
            match unmarshalAsyncTranscript j with
            | none => Except.error SupaError.decodeFailure
            | some a => Except.ok { Sync := none, Async := some a }
          else
            match unmarshalSyncTranscript j with
            | none => Except.error SupaError.decodeFailure
            | some s => Except.ok { Sync := some s, Async := none }

/- ===== url.Values (Set / Add / Get) ===== -/

/-- Type `url.Values` is `map[string][]string`; modelled as an association list
with at most one entry per key. -/
abbrev Values := List (String × List String)

def valuesGet (q : Values) (k : String) : Option (List String) :=
  match q with
  | [] => none
  | e :: rest => if e.1 == k then some e.2 else valuesGet rest k

/-- Model of `Values.Set`: replace the key's value slice with a singleton. -/
def valuesSet (q : Values) (k : String) (v : String) : Values :=
  match q with
  | [] => [(k, [v])]
  | e :: rest => if e.1 == k then (e.1, [v]) :: rest else e :: valuesSet rest k v

/-- Model of `Values.Add`: append to the key's value slice. -/
def valuesAdd (q : Values) (k : String) (v : String) : Values :=
  match q with
  | [] => [(k, [v])]
  | e :: rest =>
      if e.1 == k then (e.1, e.2 ++ [v]) :: rest else e :: valuesAdd rest k v

/-- Statement form `if cond { q.Set(k, v) }`: one conditional query-parameter statement. -/
def setIf (c : Bool) (q : Values) (k v : String) : Values :=
  if c then valuesSet q k v else q

/-- Statement form `for _, v := range vs { q.Add(k, v) }`. -/
def addEach (q : Values) (k : String) (vs : List String) : Values :=
  vs.foldl (fun m v => valuesAdd m k v) q

/-- Statement form `if len(vs) > 0 { for _, v := range vs { q.Add(k, v) } }`. -/
def addEachIf (c : Bool) (q : Values) (k : String) (vs : List String) : Values :=
  if c then addEach q k vs else q

/- ===== Client configuration (Config, ConfigOption, NewSupadata) ===== -/

def BaseUrl : String := "https://api.supadata.ai/v1"

/-- Model of `http.Client`: the transport handle with its timeout field.  The
underlying `http.RoundTripper` is opaque, modelled by a tag. -/
structure HttpClient where
  Timeout : Int
  Transport : Nat
deriving DecidableEq, Repr

/-- Tag for `http.DefaultTransport`, the opaque default. -/
def DefaultTransport : Nat := 0

structure Config where
  apiKey : String
  baseURL : String
  client : HttpClient
deriving DecidableEq, Repr

/-- The four `ConfigOption` constructors (`WithAPIKey`, `WithTimeout`,
`WithClient`, `WithBaseURL`). -/
inductive ConfigOption where
  | WithAPIKey (apiKey : String)
  | WithTimeout (timeout : Int)
  | WithClient (client : HttpClient)
  | WithBaseURL (baseURL : String)
deriving DecidableEq, Repr

/-- Application of one option function to the configuration. -/
def applyOption (config : Config) (opt : ConfigOption) : Config :=
  match opt with
  | ConfigOption.WithAPIKey k => { config with apiKey := k }
  | ConfigOption.WithTimeout t => { config with client := { config.client with Timeout := t } }
  | ConfigOption.WithClient c => { config with client := c }
  | ConfigOption.WithBaseURL u => { config with baseURL := u }

/-- One second of `time.Duration` in nanoseconds. -/
def second : Int := 1000000000

/-- Model of `NewSupadata(opts...)`: defaults (API key from the `SUPADATA_API_KEY`
environment variable, modelled as the explicit argument `env`), then the
options applied in caller order. -/
def NewSupadata (env : String) (opts : List ConfigOption) : Config :=
  let defaultClient : HttpClient :=
    { Timeout := 60 * second, Transport := DefaultTransport }
  let c : Config := { apiKey := env, baseURL := BaseUrl, client := defaultClient }
  opts.foldl applyOption c

/- ===== Request construction ===== -/

/-- An outgoing `http.Request`: method, full URL, headers, the query values
assigned to `URL.RawQuery`, and the optional JSON body. -/
structure Request where
  method : String
  url : String
  headers : List (String × String)
  query : Values
  reqBody : Option JsonValue

/-- Model of `http.Header.Set`. -/
def headerSet (hs : List (String × String)) (k v : String) :
    List (String × String) :=
  if hs.any (fun e => e.1 == k) then
    hs.map (fun e => if e.1 == k then (e.1, v) else e)
  else
    hs ++ [(k, v)]

def headerGet (hs : List (String × String)) (k : String) : Option String :=
  match hs.find? (fun e => e.1 == k) with
  | none => none
  | some e => some e.2

/-- Model of `(s *Supadata) setDefaultHeaders`. -/
def setDefaultHeaders (s : Config) (req : Request) : Request :=
  { req with headers :=
      (headerSet (headerSet req.headers "User-Agent" "supadata-go/1.0.0")
        "x-api-key" s.apiKey) }

/-- Model of `(s *Supadata) prepareRequest`. -/
def prepareRequest (s : Config) (method endpoint : String)
    (reqBody : Option JsonValue) : Request :=
  setDefaultHeaders s
    { method := method, url := s.baseURL ++ endpoint, headers := [],
      query := [], reqBody := reqBody }

/- ===== Endpoint parameter types ===== -/

structure TranscriptParams where
  Url : String
  Lang : String
  Text : Bool
  ChunkSize : Int
  Mode : String
deriving DecidableEq, Repr

def Auto : String := "auto"

structure ScrapeParams where
  Url : String
  NoLinks : Bool
  Lang : String
deriving DecidableEq, Repr

structure MapParams where
  Url : String
  NoLinks : Bool
  Lang : String
deriving DecidableEq, Repr

structure CrawlBody where
  Url : String
  Limit : Int
deriving DecidableEq, Repr

/-- Model of `json.Marshal` of `CrawlBody` (`limit` tagged `omitempty`). -/
def CrawlBody.marshal (b : CrawlBody) : JsonValue :=
  JsonValue.obj ([("url", JsonValue.str b.Url)] ++
    (if b.Limit == 0 then [] else [("limit", JsonValue.num b.Limit)]))

structure YouTubeSearchParams where
  Query : String
  UploadDate : String
  SearchType : String
  Duration : String
  SortBy : String
  Features : List String
  Limit : Int
  NextPageToken : String
deriving DecidableEq, Repr

/-- The ten `YouTubeSearchFeature` constants. -/
def youTubeSearchFeatures : List String :=
  ["hd", "subtitles", "creative-commons", "3d", "live", "4k", "360",
   "location", "hdr", "vr180"]

structure YouTubeVideoBatchParams where
  VideoIds : List String
  PlaylistId : String
  ChannelId : String
  Limit : Int
deriving DecidableEq, Repr

def YouTubeVideoBatchParams.marshal (p : YouTubeVideoBatchParams) : JsonValue :=
  JsonValue.obj
    ((if p.VideoIds.isEmpty then [] else
        [("videoIds", JsonValue.arr (p.VideoIds.map JsonValue.str))]) ++
     (if p.PlaylistId == "" then [] else [("playlistId", JsonValue.str p.PlaylistId)]) ++
     (if p.ChannelId == "" then [] else [("channelId", JsonValue.str p.ChannelId)]) ++
     (if p.Limit == 0 then [] else [("limit", JsonValue.num p.Limit)]))

structure YouTubeTranscriptParams where
  Url : String
  VideoId : String
  Text : Bool
  ChunkSize : Int
  Lang : String
deriving DecidableEq, Repr

structure YouTubeTranscriptBatchParams where
  VideoIds : List String
  PlaylistId : String
  ChannelId : String
  Limit : Int
  Lang : String
  SendText : Bool
deriving DecidableEq, Repr

def YouTubeTranscriptBatchParams.marshal (p : YouTubeTranscriptBatchParams) :
    JsonValue :=
  JsonValue.obj
    ((if p.VideoIds.isEmpty then [] else
        [("videoIds", JsonValue.arr (p.VideoIds.map JsonValue.str))]) ++
     (if p.PlaylistId == "" then [] else [("playlistId", JsonValue.str p.PlaylistId)]) ++
     (if p.ChannelId == "" then [] else [("channelId", JsonValue.str p.ChannelId)]) ++
     (if p.Limit == 0 then [] else [("limit", JsonValue.num p.Limit)]) ++
     (if p.Lang == "" then [] else [("lang", JsonValue.str p.Lang)]) ++
     (if p.SendText == false then [] else [("text", JsonValue.bool p.SendText)]))

structure YouTubeTranscriptTranslateParams where
  Url : String
  VideoId : String
  Text : Bool
  ChunkSize : Int
  Lang : String
deriving DecidableEq, Repr

structure YouTubeChannelVideosParams where
  Id : String
  Limit : Int
  VideoType : String
deriving DecidableEq, Repr

structure YouTubePlaylistVideosParams where
  Id : String
  Limit : Int
deriving DecidableEq, Repr

/- ===== Request-building halves of the endpoint methods ===== -/

/-- Request half of `(s *Supadata) Transcript`. -/
def transcriptRequest (s : Config) (params : TranscriptParams) : Request :=
  let req := prepareRequest s "GET" "/transcript" none
  let q := valuesSet [] "url" params.Url
  let q := setIf (params.Lang != "") q "lang" params.Lang
  let q := setIf params.Text q "text" "true"
  let q := setIf (params.ChunkSize > 0) q "chunkSize" (toString params.ChunkSize)
  let q := if params.Mode != "" then valuesSet q "mode" params.Mode
    else valuesSet q "mode" Auto
  { req with query := q }

/-- Request half of `(s *Supadata) TranscriptResult`. -/
def transcriptResultRequest (s : Config) (jobId : String) : Request :=
  prepareRequest s "GET" ("/transcript/" ++ jobId) none

/-- Request half of `(s *Supadata) Metadata`. -/
def metadataRequest (s : Config) (url : String) : Request :=
  let req := prepareRequest s "GET" "/metadata" none
  { req with query := valuesSet [] "url" url }

/-- Request half of `(s *Supadata) Me`. -/
def meRequest (s : Config) : Request :=
  prepareRequest s "GET" "/me" none

/-- Request half of `(s *Supadata) Scrape`. -/
def scrapeRequest (s : Config) (params : ScrapeParams) : Request :=
  let req := prepareRequest s "GET" "/web/scrape" none
  let q := valuesSet [] "url" params.Url
  let q := setIf params.NoLinks q "noLinks" "true"
  let q := setIf (params.Lang != "") q "lang" params.Lang
  { req with query := q }

/-- Request half of `(s *Supadata) Map`. -/
def mapRequest (s : Config) (params : MapParams) : Request :=
  let req := prepareRequest s "GET" "/web/map" none
  let q := valuesSet [] "url" params.Url
  let q := setIf params.NoLinks q "noLinks" "true"
  let q := setIf (params.Lang != "") q "lang" params.Lang
  { req with query := q }

/-- Request half of `(s *Supadata) Crawl` (POST, JSON body). -/
def crawlRequest (s : Config) (params : CrawlBody) : Request :=
  let req := prepareRequest s "POST" "/web/crawl" (some params.marshal)
  { req with headers := headerSet req.headers "Content-Type" "application/json" }

/-- Request half of `(s *Supadata) CrawlResult`: the `skip` query parameter
is attached only when `skip > 0`. -/
def crawlResultRequest (s : Config) (jobId : String) (skip : Int) : Request :=
  let req := prepareRequest s "GET" ("/web/crawl/" ++ jobId) none
  if skip > 0 then
    { req with query := valuesSet [] "skip" (toString skip) }
  else
    req

/-- Request half of `(s *Supadata) YouTubeSearch`: each feature flag is
`Add`ed as its own repeated `features` entry. -/
def youTubeSearchRequest (s : Config) (params : YouTubeSearchParams) : Request :=
  let req := prepareRequest s "GET" "/youtube/search" none
  let q := valuesSet [] "query" params.Query
  let q := setIf (params.UploadDate != "") q "uploadDate" params.UploadDate
  let q := setIf (params.SearchType != "") q "type" params.SearchType
  let q := setIf (params.Duration != "") q "duration" params.Duration
  let q := setIf (params.SortBy != "") q "sortBy" params.SortBy
  let q := addEachIf (params.Features.length > 0) q "features" params.Features
  let q := setIf (params.Limit > 0) q "limit" (toString params.Limit)
  let q := setIf (params.NextPageToken != "") q "nextPageToken" params.NextPageToken
  { req with query := q }

/-- Request half of `(s *Supadata) YouTubeVideo`. -/
def youTubeVideoRequest (s : Config) (id : String) : Request :=
  let req := prepareRequest s "GET" "/youtube/video" none
  { req with query := valuesSet [] "id" id }

/-- Request half of `(s *Supadata) YouTubeVideoBatch` (POST, JSON body). -/
def youTubeVideoBatchRequest (s : Config) (params : YouTubeVideoBatchParams) :
    Request :=
  let req := prepareRequest s "POST" "/youtube/video/batch" (some params.marshal)
  { req with headers := headerSet req.headers "Content-Type" "application/json" }

/-- Request half of `(s *Supadata) YouTubeTranscript`. -/
def youTubeTranscriptRequest (s : Config) (params : YouTubeTranscriptParams) :
    Request :=
  let req := prepareRequest s "GET" "/youtube/transcript" none
  let q := setIf (params.Url != "") [] "url" params.Url
  let q := setIf (params.VideoId != "") q "videoId" params.VideoId
  let q := setIf params.Text q "text" "true"
  let q := setIf (params.ChunkSize > 0) q "chunkSize" (toString params.ChunkSize)
  let q := setIf (params.Lang != "") q "lang" params.Lang
  { req with query := q }

/-- Request half of `(s *Supadata) YouTubeTranscriptBatch` (POST, JSON body). -/
def youTubeTranscriptBatchRequest (s : Config)
    (params : YouTubeTranscriptBatchParams) : Request :=
  let req := prepareRequest s "POST" "/youtube/transcript/batch" (some params.marshal)
  { req with headers := headerSet req.headers "Content-Type" "application/json" }

/-- Request half of `(s *Supadata) YouTubeTranscriptTranslate`. -/
def youTubeTranscriptTranslateRequest (s : Config)
    (params : YouTubeTranscriptTranslateParams) : Request :=
  let req := prepareRequest s "GET" "/youtube/transcript/translate" none
  let q := setIf (params.Url != "") [] "url" params.Url
  let q := setIf (params.VideoId != "") q "videoId" params.VideoId
  let q := setIf params.Text q "text" "true"
  let q := setIf (params.ChunkSize > 0) q "chunkSize" (toString params.ChunkSize)
  let q := valuesSet q "lang" params.Lang
  { req with query := q }

/-- Request half of `(s *Supadata) YouTubeChannel`. -/
def youTubeChannelRequest (s : Config) (id : String) : Request :=
  let req := prepareRequest s "GET" "/youtube/channel" none
  { req with query := valuesSet [] "id" id }

/-- Request half of `(s *Supadata) YouTubePlaylist`. -/
def youTubePlaylistRequest (s : Config) (id : String) : Request :=
  let req := prepareRequest s "GET" "/youtube/playlist" none
  { req with query := valuesSet [] "id" id }

/-- Request half of `(s *Supadata) YouTubeChannelVideos`. -/
def youTubeChannelVideosRequest (s : Config)
    (params : YouTubeChannelVideosParams) : Request :=
  let req := prepareRequest s "GET" "/youtube/channel/videos" none
  let q := valuesSet [] "id" params.Id
  let q := setIf (params.Limit > 0) q "limit" (toString params.Limit)
  let q := setIf (params.VideoType != "") q "type" params.VideoType
  { req with query := q }

/-- Request half of `(s *Supadata) YouTubePlaylistVideos`. -/
def youTubePlaylistVideosRequest (s : Config)
    (params : YouTubePlaylistVideosParams) : Request :=
  let req := prepareRequest s "GET" "/youtube/playlist/videos" none
  let q := valuesSet [] "id" params.Id
  let q := setIf (params.Limit > 0) q "limit" (toString params.Limit)
  { req with query := q }

/-- Request half of `(s *Supadata) YouTubeBatchResult`. -/
def youTubeBatchResultRequest (s : Config) (jobId : String) : Request :=
  prepareRequest s "GET" ("/youtube/batch/" ++ jobId) none

/-- One logical endpoint operation together with its input. -/
inductive Endpoint where
  | transcript (params : TranscriptParams)
  | transcriptResult (jobId : String)
  | metadata (url : String)
  | me
  | scrape (params : ScrapeParams)
  | webMap (params : MapParams)
  | crawl (params : CrawlBody)
  | crawlResult (jobId : String) (skip : Int)
  | youTubeSearch (params : YouTubeSearchParams)
  | youTubeVideo (id : String)
  | youTubeVideoBatch (params : YouTubeVideoBatchParams)
  | youTubeTranscript (params : YouTubeTranscriptParams)
  | youTubeTranscriptBatch (params : YouTubeTranscriptBatchParams)
  | youTubeTranscriptTranslate (params : YouTubeTranscriptTranslateParams)
  | youTubeChannel (id : String)
  | youTubePlaylist (id : String)
  | youTubeChannelVideos (params : YouTubeChannelVideosParams)
  | youTubePlaylistVideos (params : YouTubePlaylistVideosParams)
  | youTubeBatchResult (jobId : String)

/-- The request built by each endpoint operation. -/
def buildRequest (s : Config) (ep : Endpoint) : Request :=
  match ep with
  | Endpoint.transcript p => transcriptRequest s p
  | Endpoint.transcriptResult j => transcriptResultRequest s j
  | Endpoint.metadata u => metadataRequest s u
  | Endpoint.me => meRequest s
  | Endpoint.scrape p => scrapeRequest s p
  | Endpoint.webMap p => mapRequest s p
  | Endpoint.crawl p => crawlRequest s p
  | Endpoint.crawlResult j sk => crawlResultRequest s j sk
  | Endpoint.youTubeSearch p => youTubeSearchRequest s p
  | Endpoint.youTubeVideo i => youTubeVideoRequest s i
  | Endpoint.youTubeVideoBatch p => youTubeVideoBatchRequest s p
  | Endpoint.youTubeTranscript p => youTubeTranscriptRequest s p
  | Endpoint.youTubeTranscriptBatch p => youTubeTranscriptBatchRequest s p
  | Endpoint.youTubeTranscriptTranslate p => youTubeTranscriptTranslateRequest s p
  | Endpoint.youTubeChannel i => youTubeChannelRequest s i
  | Endpoint.youTubePlaylist i => youTubePlaylistRequest s i
  | Endpoint.youTubeChannelVideos p => youTubeChannelVideosRequest s p
  | Endpoint.youTubePlaylistVideos p => youTubePlaylistVideosRequest s p
  | Endpoint.youTubeBatchResult j => youTubeBatchResultRequest s j

/- ===== Query-string encoding (url.Values.Encode) and parsing
       (url.ParseQuery), at the level of character sequences ===== -/

def upperHexDigits : List Char :=
  ['0', '1', '2', '3', '4', '5', '6', '7', '8', '9',
   'A', 'B', 'C', 'D', 'E', 'F']

def upperHexDigit (n : Nat) : Char :=
  upperHexDigits.getD n '0'

/-- Characters kept verbatim by `url.QueryEscape`. -/
def isUnreserved (c : Char) : Bool :=
  c.isAlphanum || c == '-' || c == '_' || c == '.' || c == '~'

/-- Model of `url.QueryEscape`, one character: space becomes `+`, unreserved
characters stay, anything else becomes a percent escape.  (Go escapes the
UTF-8 bytes of a non-ASCII character; for ASCII text the two coincide, and
the properties proved below depend only on the ASCII behaviour.) -/
def escapeChar (c : Char) : List Char :=
  if c == ' ' then ['+']
  else if isUnreserved c then [c]
  else ['%', upperHexDigit (c.toNat / 16 % 16), upperHexDigit (c.toNat % 16)]

def queryEscape (s : String) : List Char :=
  s.toList.flatMap escapeChar

def unhexDigit (c : Char) : Option Nat :=
  if 48 ≤ c.toNat && c.toNat ≤ 57 then some (c.toNat - 48)
  else if 97 ≤ c.toNat && c.toNat ≤ 102 then some (c.toNat - 87)
  else if 65 ≤ c.toNat && c.toNat ≤ 70 then some (c.toNat - 55)
  else none

/-- Model of `url.QueryUnescape`: reverse percent escapes (two hex digits required)
and turn `+` back into space. -/
def queryUnescape : List Char → Option (List Char)
  | [] => some []
  | '%' :: a :: b :: rest => do
      let ha ← unhexDigit a
      let hb ← unhexDigit b
      let r ← queryUnescape rest
      pure (Char.ofNat (16 * ha + hb) :: r)
  | '%' :: _ => none
  | '+' :: rest => do
      let r ← queryUnescape rest
      pure (' ' :: r)
  | c :: rest => do
      let r ← queryUnescape rest
      pure (c :: r)

/-- One `k=v` segment of an encoded query string. -/
def encodeSeg (k v : String) : List Char :=
  queryEscape k ++ '=' :: queryEscape v

/-- Model of `url.Values.Encode`: keys in sorted order, one `k=v` segment per value,
joined with `&`. -/
def encodeValues (q : Values) : List Char :=
  let sorted := q.mergeSort (fun a b => a.1 ≤ b.1)
  List.intercalate ['&']
    (sorted.flatMap (fun e => e.2.map (fun v => encodeSeg e.1 v)))

/-- Model of `strings.Cut` on the first occurrence of a separator character. -/
def cutChar (sep : Char) (s : List Char) : List Char × List Char :=
  match s with
  | [] => ([], [])
  | c :: rest =>
      if c == sep then ([], rest)
      else
        let r := cutChar sep rest
        (c :: r.1, r.2)

/-- One iteration of `url.ParseQuery`'s loop: a segment is skipped if it
contains a semicolon, is empty, or fails to unescape; otherwise cut at the
first `=` and unescape both halves. -/
def parseSeg (seg : List Char) : Option (String × String) :=
  if seg.contains ';' then none
  else if seg.isEmpty then none
  else
    let kv := cutChar '=' seg
    match queryUnescape kv.1, queryUnescape kv.2 with
    | some k, some v => some (String.mk k, String.mk v)
    | _, _ => none

def parseStep (m : Values) (seg : List Char) : Values :=
  match parseSeg seg with
  | none => m
  | some kv => valuesAdd m kv.1 kv.2

/-- Model of `url.ParseQuery`: split on `&` and accumulate the parsed segments. -/
def parseQuery (s : List Char) : Values :=
  (List.splitOn '&' s).foldl parseStep []

/-- The query string assigned to `req.URL.RawQuery` (`q.Encode()`). -/
def Request.rawQuery (r : Request) : List Char :=
  encodeValues r.query

/- ===== Helper lemmas about Values ===== -/

def entriesFor (q : Values) (k : String) : Values :=
  q.filter (fun e => e.1 == k)

theorem valuesGet_set_self (q : Values) (k v : String) :
    valuesGet (valuesSet q k v) k = some [v] := by
  induction q with
  | nil => simp [valuesSet, valuesGet]
  | cons e rest ih =>
      by_cases h : e.1 = k
      · simp [valuesSet, valuesGet, h]
      · simp [valuesSet, valuesGet, h, ih]

theorem valuesGet_set_ne (q : Values) (k k' v : String) (hne : k' ≠ k) :
    valuesGet (valuesSet q k' v) k = valuesGet q k := by
  have hne2 : k ≠ k' := Ne.symm hne
  induction q with
  | nil => simp [valuesSet, valuesGet, hne]
  | cons e rest ih =>
      by_cases h : e.1 = k'
      · simp [valuesSet, valuesGet, h, hne, hne2]
      · by_cases h2 : e.1 = k
        · simp [valuesSet, valuesGet, h, h2, hne, hne2]
        · simp [valuesSet, valuesGet, h, h2, ih]

theorem valuesGet_add_self (q : Values) (k v : String) :
    valuesGet (valuesAdd q k v) k =
      some ((valuesGet q k).getD [] ++ [v]) := by
  induction q with
  | nil => simp [valuesAdd, valuesGet]
  | cons e rest ih =>
      by_cases h : e.1 = k
      · simp [valuesAdd, valuesGet, h]
      · simp [valuesAdd, valuesGet, h, ih]

theorem valuesGet_add_ne (q : Values) (k k' v : String) (hne : k' ≠ k) :
    valuesGet (valuesAdd q k' v) k = valuesGet q k := by
  have hne2 : k ≠ k' := Ne.symm hne
  induction q with
  | nil => simp [valuesAdd, valuesGet, hne]
  | cons e rest ih =>
      by_cases h : e.1 = k'
      · simp [valuesAdd, valuesGet, h, hne, hne2]
      · by_cases h2 : e.1 = k
        · simp [valuesAdd, valuesGet, h, h2, hne, hne2]
        · simp [valuesAdd, valuesGet, h, h2, ih]

theorem entriesFor_set_ne (q : Values) (k k' v : String) (hne : k' ≠ k) :
    entriesFor (valuesSet q k' v) k = entriesFor q k := by
  have hne2 : k ≠ k' := Ne.symm hne
  induction q with
  | nil => simp [valuesSet, entriesFor, hne]
  | cons e rest ih =>
      by_cases h : e.1 = k'
      · simp [valuesSet, entriesFor, List.filter_cons, h, hne, hne2]
      · by_cases h2 : e.1 = k
        · simpa [valuesSet, entriesFor, List.filter_cons, h, h2, hne, hne2]
            using ih
        · simpa [valuesSet, entriesFor, List.filter_cons, h, h2] using ih

theorem valuesGet_eq_head_entriesFor (q : Values) (k : String) :
    valuesGet q k = ((entriesFor q k).head?).map (fun e => e.2) := by
  induction q with
  | nil => simp [valuesGet, entriesFor]
  | cons e rest ih =>
      by_cases h : e.1 = k
      · simp [valuesGet, entriesFor, List.filter_cons, h]
      · simpa [valuesGet, entriesFor, List.filter_cons, h] using ih

theorem entriesFor_eq_nil_iff (q : Values) (k : String) :
    entriesFor q k = [] ↔ ∀ e ∈ q, e.1 ≠ k := by
  simp [entriesFor, List.filter_eq_nil_iff]

theorem keys_valuesSet (q : Values) (k v : String) :
    ∀ e ∈ valuesSet q k v, e.1 = k ∨ e.1 ∈ q.map (fun e => e.1) := by
  induction q with
  | nil => simp [valuesSet]
  | cons e rest ih =>
      intro x hx
      by_cases h : e.1 = k
      · simp [valuesSet, h] at hx
        rcases hx with hx | hx
        · left; rw [hx]
        · right
          simp only [List.map_cons, List.mem_cons]
          exact Or.inr (List.mem_map_of_mem (fun e => e.1) hx)
      · simp [valuesSet, h] at hx
        rcases hx with hx | hx
        · right; rw [hx]; simp
        · rcases ih x hx with h1 | h1
          · left; exact h1
          · right
            simp only [List.map_cons, List.mem_cons]
            exact Or.inr h1

theorem valuesAdd_of_not_mem (q : Values) (k v : String)
    (h : ∀ e ∈ q, e.1 ≠ k) : valuesAdd q k v = q ++ [(k, [v])] := by
  induction q with
  | nil => simp [valuesAdd]
  | cons e rest ih =>
      have he : e.1 ≠ k := h e (by simp)
      simp [valuesAdd, he]
      exact ih (fun x hx => h x (by simp [hx]))

theorem valuesAdd_append_last (q : Values) (k v : String) (vs : List String)
    (h : ∀ e ∈ q, e.1 ≠ k) :
    valuesAdd (q ++ [(k, vs)]) k v = q ++ [(k, vs ++ [v])] := by
  induction q with
  | nil => simp [valuesAdd]
  | cons e rest ih =>
      have he : e.1 ≠ k := h e (by simp)
      simp [valuesAdd, he]
      exact ih (fun x hx => h x (by simp [hx]))

theorem foldAdd_append_last (fs : List String) (q : Values) (k : String)
    (vs : List String) (h : ∀ e ∈ q, e.1 ≠ k) :
    fs.foldl (fun m f => valuesAdd m k f) (q ++ [(k, vs)]) =
      q ++ [(k, vs ++ fs)] := by
  induction fs generalizing vs with
  | nil => simp
  | cons f rest ih =>
      simp only [List.foldl_cons]
      rw [valuesAdd_append_last q k f vs h, ih (vs ++ [f])]
      simp

theorem foldAdd_fresh (fs : List String) (q : Values) (k : String)
    (hne : fs ≠ []) (h : ∀ e ∈ q, e.1 ≠ k) :
    fs.foldl (fun m f => valuesAdd m k f) q = q ++ [(k, fs)] := by
  cases fs with
  | nil => exact absurd rfl hne
  | cons f rest =>
      simp only [List.foldl_cons]
      rw [valuesAdd_of_not_mem q k f h, foldAdd_append_last rest q k [f] h]
      simp

/- ===== Character-level facts about query escaping ===== -/

theorem upperHexDigit_mem (n : Nat) : upperHexDigit n ∈ upperHexDigits := by
  unfold upperHexDigit
  rcases Nat.lt_or_ge n upperHexDigits.length with h | h
  · rw [List.getD_eq_getElem upperHexDigits '0' h]
    exact List.getElem_mem h
  · rw [List.getD_eq_default upperHexDigits '0' h]
    decide

theorem mem_escapeChar (c x : Char) (hx : x ∈ escapeChar c) :
    x = '+' ∨ x = '%' ∨ x ∈ upperHexDigits ∨ isUnreserved x = true := by
  unfold escapeChar at hx
  by_cases h1 : c = ' '
  · simp [h1] at hx
    left; exact hx
  · by_cases h2 : isUnreserved c
    · simp [h1, h2] at hx
      right; right; right; rw [hx]; exact h2
    · simp [h1, h2] at hx
      rcases hx with hx | hx | hx
      · right; left; exact hx
      · right; right; left; rw [hx]; exact upperHexDigit_mem _
      · right; right; left; rw [hx]; exact upperHexDigit_mem _

/-- No structural character (`&`, `=`, `;`) ever appears in escaped output. -/
theorem mem_queryEscape_safe (v : String) (x : Char)
    (hx : x ∈ queryEscape v) : x ≠ '&' ∧ x ≠ '=' ∧ x ≠ ';' := by
  unfold queryEscape at hx
  rw [List.mem_flatMap] at hx
  obtain ⟨c, _, hc⟩ := hx
  have h := mem_escapeChar c x hc
  rcases h with h | h | h | h
  · subst h; exact ⟨by decide, by decide, by decide⟩
  · subst h; exact ⟨by decide, by decide, by decide⟩
  · fin_cases h <;> exact ⟨by decide, by decide, by decide⟩
  · refine ⟨?_, ?_, ?_⟩ <;> rintro rfl <;> simp [isUnreserved] at h

theorem cutChar_append (a b : List Char) (sep : Char) (ha : sep ∉ a) :
    cutChar sep (a ++ sep :: b) = (a, b) := by
  induction a with
  | nil => simp [cutChar]
  | cons c rest ih =>
      have hc : c ≠ sep := by
        intro h; exact ha (by simp [h])
      simp only [List.cons_append, cutChar, beq_iff_eq, hc, if_false,
        List.append_eq]
      rw [ih (fun h => ha (by simp [h]))]

/- ===== Parsing encoded segments back ===== -/

/-- The query-parameter keys the YouTube search endpoint can emit. -/
def allowedSearchKeys : List String :=
  ["query", "uploadDate", "type", "duration", "sortBy", "features", "limit",
   "nextPageToken"]

theorem allowedKey_facts (k : String) (hk : k ∈ allowedSearchKeys) :
    queryUnescape (queryEscape k) = some k.toList ∧
      '=' ∉ queryEscape k ∧ '&' ∉ queryEscape k ∧ ';' ∉ queryEscape k := by
  fin_cases hk <;> exact ⟨by decide, by decide, by decide, by decide⟩

theorem amp_not_mem_encodeSeg (k v : String) (hk : k ∈ allowedSearchKeys) :
    '&' ∉ encodeSeg k v := by
  have hkf := allowedKey_facts k hk
  unfold encodeSeg
  intro hmem
  rw [List.mem_append] at hmem
  rcases hmem with h | h
  · exact hkf.2.2.1 h
  · rw [List.mem_cons] at h
    rcases h with h | h
    · exact absurd h (by decide)
    · exact (mem_queryEscape_safe v '&' h).1 rfl

theorem parseSeg_encodeSeg (k v : String) (hk : k ∈ allowedSearchKeys) :
    parseSeg (encodeSeg k v) = none ∨
      ∃ v', parseSeg (encodeSeg k v) = some (k, v') := by
  have hkf := allowedKey_facts k hk
  have hnmem : ';' ∉ encodeSeg k v := by
    unfold encodeSeg
    intro hmem
    rw [List.mem_append] at hmem
    rcases hmem with h | h
    · exact hkf.2.2.2 h
    · rw [List.mem_cons] at h
      rcases h with h | h
      · exact absurd h (by decide)
      · exact (mem_queryEscape_safe v ';' h).2.2 rfl
  have hsemi : (encodeSeg k v).contains ';' = false := by
    simpa using hnmem
  have hempty : (encodeSeg k v).isEmpty = false := by
    have : encodeSeg k v ≠ [] := by
      unfold encodeSeg
      intro h
      exact List.cons_ne_nil '=' (queryEscape v) (List.append_eq_nil.mp h).2
    simpa [List.isEmpty_iff] using this
  have hcut : cutChar '=' (encodeSeg k v) = (queryEscape k, queryEscape v) :=
    cutChar_append _ _ _ hkf.2.1
  have hmk : String.mk k.toList = k := rfl
  cases hv : queryUnescape (queryEscape v) with
  | none =>
      left
      simp [parseSeg, hsemi, hempty, hnmem, hcut, hkf.1, hv]
  | some w =>
      right
      refine ⟨String.mk w, ?_⟩
      simp [parseSeg, hsemi, hempty, hnmem, hcut, hkf.1, hv, hmk]

theorem parseSeg_feature (f : String) (hf : f ∈ youTubeSearchFeatures) :
    parseSeg (encodeSeg "features" f) = some ("features", f) := by
  fin_cases hf <;> decide

/- ===== Accumulation of parsed segments ===== -/

/-- The values that the parse loop adds under key `k`, in order. -/
def collected (k : String) (segs : List (List Char)) : List String :=
  (segs.filterMap parseSeg).filterMap
    (fun kv => if kv.1 = k then some kv.2 else none)

theorem collected_append (k : String) (s1 s2 : List (List Char)) :
    collected k (s1 ++ s2) = collected k s1 ++ collected k s2 := by
  simp [collected, List.filterMap_append]

theorem parseFold_getD (segs : List (List Char)) (m : Values) (k : String) :
    (valuesGet (segs.foldl parseStep m) k).getD [] =
      (valuesGet m k).getD [] ++ collected k segs := by
  induction segs generalizing m with
  | nil => simp [collected]
  | cons seg rest ih =>
      rw [List.foldl_cons, ih]
      cases hp : parseSeg seg with
      | none => simp [parseStep, hp, collected, List.filterMap_cons]
      | some kv =>
          by_cases hkk : kv.1 = k
          · subst hkk
            simp [parseStep, hp, collected, List.filterMap_cons,
              valuesGet_add_self]
          · simp [parseStep, hp, collected, List.filterMap_cons, hkk,
              valuesGet_add_ne m k kv.1 kv.2 hkk]

theorem parseFold_get_none (segs : List (List Char)) (m : Values) (k : String) :
    valuesGet (segs.foldl parseStep m) k = none ↔
      valuesGet m k = none ∧ collected k segs = [] := by
  induction segs generalizing m with
  | nil => simp [collected]
  | cons seg rest ih =>
      rw [List.foldl_cons, ih]
      cases hp : parseSeg seg with
      | none => simp [parseStep, hp, collected, List.filterMap_cons]
      | some kv =>
          by_cases hkk : kv.1 = k
          · subst hkk
            simp [parseStep, hp, collected, List.filterMap_cons,
              valuesGet_add_self]
          · simp [parseStep, hp, collected, List.filterMap_cons, hkk,
              valuesGet_add_ne m k kv.1 kv.2 hkk]

theorem parseFold_get_of_collected (segs : List (List Char)) (k : String)
    (hc : collected k segs ≠ []) :
    valuesGet (segs.foldl parseStep []) k = some (collected k segs) := by
  cases hg : valuesGet (segs.foldl parseStep []) k with
  | none =>
      rw [parseFold_get_none] at hg
      exact absurd hg.2 hc
  | some vs =>
      have := parseFold_getD segs [] k
      rw [hg] at this
      simp [valuesGet] at this
      rw [this]

/- ===== Collected values of an encoded Values list ===== -/

theorem collected_entry_ne (k : String) (vs : List String)
    (hk : k ∈ allowedSearchKeys) (hne : k ≠ "features") :
    collected "features" (vs.map (fun v => encodeSeg k v)) = [] := by
  induction vs with
  | nil => simp [collected]
  | cons v rest ih =>
      rw [List.map_cons, show (encodeSeg k v :: List.map (fun v => encodeSeg k v) rest) = [encodeSeg k v] ++ List.map (fun v => encodeSeg k v) rest from rfl, collected_append, ih]
      rcases parseSeg_encodeSeg k v hk with h | ⟨v', h⟩
      · simp [collected, List.filterMap_cons, h]
      · simp [collected, List.filterMap_cons, h, hne]

theorem collected_features_map (fs : List String)
    (hf : ∀ f ∈ fs, f ∈ youTubeSearchFeatures) :
    collected "features" (fs.map (fun v => encodeSeg "features" v)) = fs := by
  induction fs with
  | nil => simp [collected]
  | cons f rest ih =>
      have hpf := parseSeg_feature f (hf f (by simp))
      rw [List.map_cons, show (encodeSeg "features" f :: List.map (fun v => encodeSeg "features" v) rest) = [encodeSeg "features" f] ++ List.map (fun v => encodeSeg "features" v) rest from rfl, collected_append,
        ih (fun x hx => hf x (by simp [hx]))]
      simp [collected, List.filterMap_cons, hpf]

theorem collected_flatMap_nil (l : Values)
    (hb : ∀ e ∈ l, e.1 ∈ allowedSearchKeys)
    (hf : entriesFor l "features" = []) :
    collected "features"
      (l.flatMap (fun e => e.2.map (fun v => encodeSeg e.1 v))) = [] := by
  induction l with
  | nil => simp [collected]
  | cons e rest ih =>
      rw [List.flatMap_cons, collected_append]
      have hke : e.1 ≠ "features" :=
        (entriesFor_eq_nil_iff _ _).mp hf e (by simp)
      have hrest : entriesFor rest "features" = [] := by
        rw [entriesFor_eq_nil_iff] at hf ⊢
        exact fun x hx => hf x (by simp [hx])
      rw [collected_entry_ne e.1 e.2 (hb e (by simp)) hke,
        ih (fun x hx => hb x (by simp [hx])) hrest]
      rfl

theorem collected_flatMap (l : Values) (fs : List String)
    (hb : ∀ e ∈ l, e.1 ∈ allowedSearchKeys)
    (hf : entriesFor l "features" = [("features", fs)])
    (hsafe : ∀ f ∈ fs, f ∈ youTubeSearchFeatures) :
    collected "features"
      (l.flatMap (fun e => e.2.map (fun v => encodeSeg e.1 v))) = fs := by
  induction l with
  | nil => simp [entriesFor] at hf
  | cons e rest ih =>
      rw [List.flatMap_cons, collected_append]
      by_cases hke : e.1 = "features"
      · have hstep : entriesFor (e :: rest) "features" =
            e :: entriesFor rest "features" := by
          simp [entriesFor, List.filter_cons, hke]
        rw [hstep] at hf
        obtain ⟨he, hrest⟩ := List.cons_eq_cons.mp hf
        rw [he]
        rw [collected_features_map fs hsafe,
          collected_flatMap_nil rest (fun x hx => hb x (by simp [hx])) hrest]
        simp
      · have hf2 : entriesFor rest "features" = [("features", fs)] := by
          have := hf
          simpa [entriesFor, List.filter_cons, hke] using this
        rw [collected_entry_ne e.1 e.2 (hb e (by simp)) hke,
          ih (fun x hx => hb x (by simp [hx])) hf2]
        simp

/- ===== Lemmas about the conditional query-building helpers ===== -/

theorem valuesGet_setIf_ne (c : Bool) (q : Values) (k v k' : String)
    (h : k ≠ k') : valuesGet (setIf c q k v) k' = valuesGet q k' := by
  unfold setIf
  split
  · exact valuesGet_set_ne q k' k v h
  · rfl

theorem entriesFor_setIf (c : Bool) (q : Values) (k v k' : String)
    (h : k ≠ k') : entriesFor (setIf c q k v) k' = entriesFor q k' := by
  unfold setIf
  split
  · exact entriesFor_set_ne q k' k v h
  · rfl

theorem keysPred_valuesSet (P : String → Prop) (q : Values) (k v : String)
    (hk : P k) (hq : ∀ e ∈ q, P e.1) : ∀ e ∈ valuesSet q k v, P e.1 := by
  intro e he
  rcases keys_valuesSet q k v e he with h | h
  · rw [h]; exact hk
  · rw [List.mem_map] at h
    obtain ⟨x, hx, hxe⟩ := h
    rw [← hxe]
    exact hq x hx

theorem keysPred_setIf (P : String → Prop) (c : Bool) (q : Values)
    (k v : String) (hk : P k) (hq : ∀ e ∈ q, P e.1) :
    ∀ e ∈ setIf c q k v, P e.1 := by
  unfold setIf
  split
  · exact keysPred_valuesSet P q k v hk hq
  · exact hq

theorem keys_valuesAdd (q : Values) (k v : String) :
    ∀ e ∈ valuesAdd q k v, e.1 = k ∨ e.1 ∈ q.map (fun e => e.1) := by
  induction q with
  | nil => simp [valuesAdd]
  | cons e rest ih =>
      intro x hx
      by_cases h : e.1 = k
      · simp [valuesAdd, h] at hx
        rcases hx with hx | hx
        · left; rw [hx]
        · right
          simp only [List.map_cons, List.mem_cons]
          exact Or.inr (List.mem_map_of_mem (fun e => e.1) hx)
      · simp [valuesAdd, h] at hx
        rcases hx with hx | hx
        · right; rw [hx]; simp
        · rcases ih x hx with h1 | h1
          · left; exact h1
          · right
            simp only [List.map_cons, List.mem_cons]
            exact Or.inr h1

theorem keysPred_valuesAdd (P : String → Prop) (q : Values) (k v : String)
    (hk : P k) (hq : ∀ e ∈ q, P e.1) : ∀ e ∈ valuesAdd q k v, P e.1 := by
  intro e he
  rcases keys_valuesAdd q k v e he with h | h
  · rw [h]; exact hk
  · rw [List.mem_map] at h
    obtain ⟨x, hx, hxe⟩ := h
    rw [← hxe]
    exact hq x hx

theorem keysPred_addEach (P : String → Prop) (q : Values) (k : String)
    (vs : List String) (hk : P k) (hq : ∀ e ∈ q, P e.1) :
    ∀ e ∈ addEach q k vs, P e.1 := by
  induction vs generalizing q with
  | nil => exact hq
  | cons v rest ih =>
      unfold addEach at ih ⊢
      rw [List.foldl_cons]
      exact ih (valuesAdd q k v) (keysPred_valuesAdd P q k v hk hq)

theorem keysPred_addEachIf (P : String → Prop) (c : Bool) (q : Values)
    (k : String) (vs : List String) (hk : P k) (hq : ∀ e ∈ q, P e.1) :
    ∀ e ∈ addEachIf c q k vs, P e.1 := by
  unfold addEachIf
  split
  · exact keysPred_addEach P q k vs hk hq
  · exact hq

theorem entriesFor_addEachIf_full (c : Bool) (q : Values) (k : String)
    (vs : List String) (hc : c = true) (hvs : vs ≠ [])
    (hfresh : ∀ e ∈ q, e.1 ≠ k) :
    entriesFor (addEachIf c q k vs) k = [(k, vs)] := by
  unfold addEachIf addEach
  rw [hc, if_pos rfl, foldAdd_fresh vs q k hvs hfresh]
  rw [entriesFor, List.filter_append]
  have h1 : List.filter (fun e => e.1 == k) q = [] :=
    (entriesFor_eq_nil_iff q k).mpr hfresh
  rw [h1]
  simp [List.filter_cons]

theorem valuesGet_addEachIf_full (c : Bool) (q : Values) (k : String)
    (vs : List String) (hc : c = true) (hvs : vs ≠ [])
    (hfresh : ∀ e ∈ q, e.1 ≠ k) :
    valuesGet (addEachIf c q k vs) k = some vs := by
  rw [valuesGet_eq_head_entriesFor,
    entriesFor_addEachIf_full c q k vs hc hvs hfresh]
  rfl

theorem searchQuery_keys (s : Config) (p : YouTubeSearchParams) :
    ∀ e ∈ (youTubeSearchRequest s p).query, e.1 ∈ allowedSearchKeys := by
  unfold youTubeSearchRequest
  dsimp only
  refine keysPred_setIf (fun x => x ∈ allowedSearchKeys) _ _ _ _ (by decide) ?_
  refine keysPred_setIf (fun x => x ∈ allowedSearchKeys) _ _ _ _ (by decide) ?_
  refine keysPred_addEachIf (fun x => x ∈ allowedSearchKeys) _ _ _ _
    (by decide) ?_
  refine keysPred_setIf (fun x => x ∈ allowedSearchKeys) _ _ _ _ (by decide) ?_
  refine keysPred_setIf (fun x => x ∈ allowedSearchKeys) _ _ _ _ (by decide) ?_
  refine keysPred_setIf (fun x => x ∈ allowedSearchKeys) _ _ _ _ (by decide) ?_
  refine keysPred_setIf (fun x => x ∈ allowedSearchKeys) _ _ _ _ (by decide) ?_
  refine keysPred_valuesSet (fun x => x ∈ allowedSearchKeys) _ _ _ (by decide) ?_
  simp

theorem searchQuery_features_entries (s : Config) (p : YouTubeSearchParams)
    (hne : p.Features ≠ []) :
    entriesFor (youTubeSearchRequest s p).query "features" =
      [("features", p.Features)] := by
  unfold youTubeSearchRequest
  dsimp only
  rw [entriesFor_setIf, entriesFor_setIf]
  · refine entriesFor_addEachIf_full _ _ _ _
      (by simpa [List.length_pos] using hne) hne ?_
    refine keysPred_setIf (fun x => x ≠ "features") _ _ _ _ (by decide) ?_
    refine keysPred_setIf (fun x => x ≠ "features") _ _ _ _ (by decide) ?_
    refine keysPred_setIf (fun x => x ≠ "features") _ _ _ _ (by decide) ?_
    refine keysPred_setIf (fun x => x ≠ "features") _ _ _ _ (by decide) ?_
    refine keysPred_valuesSet (fun x => x ≠ "features") _ _ _ (by decide) ?_
    simp
  · decide
  · decide

theorem searchQuery_roundtrip (s : Config) (p : YouTubeSearchParams)
    (hne : p.Features ≠ [])
    (hfs : ∀ f ∈ p.Features, f ∈ youTubeSearchFeatures) :
    valuesGet (parseQuery ((youTubeSearchRequest s p).rawQuery)) "features" =
      some p.Features := by
  have hA := searchQuery_features_entries s p hne
  have hB := searchQuery_keys s p
  unfold Request.rawQuery encodeValues
  dsimp only
  have hperm : ((youTubeSearchRequest s p).query.mergeSort
      (fun a b => a.1 ≤ b.1)).Perm (youTubeSearchRequest s p).query :=
    List.mergeSort_perm _ _
  have hsortedKeys : ∀ e ∈ (youTubeSearchRequest s p).query.mergeSort
      (fun a b => a.1 ≤ b.1), e.1 ∈ allowedSearchKeys :=
    fun e he => hB e (hperm.subset he)
  have hsortedF : entriesFor ((youTubeSearchRequest s p).query.mergeSort
      (fun a b => a.1 ≤ b.1)) "features" = [("features", p.Features)] := by
    have hpf := hperm.filter (fun e => e.1 == "features")
    rw [show List.filter (fun e => e.1 == "features")
        (youTubeSearchRequest s p).query =
        entriesFor (youTubeSearchRequest s p).query "features" from rfl,
      hA] at hpf
    exact List.perm_singleton.mp hpf
  have hcoll : collected "features"
      (((youTubeSearchRequest s p).query.mergeSort
        (fun a b => a.1 ≤ b.1)).flatMap
        (fun e => e.2.map (fun v => encodeSeg e.1 v))) = p.Features :=
    collected_flatMap _ p.Features hsortedKeys hsortedF hfs
  have hamp : ∀ seg ∈ (((youTubeSearchRequest s p).query.mergeSort
      (fun a b => a.1 ≤ b.1)).flatMap
      (fun e => e.2.map (fun v => encodeSeg e.1 v))), '&' ∉ seg := by
    intro seg hseg
    rw [List.mem_flatMap] at hseg
    obtain ⟨e, he, hseg2⟩ := hseg
    rw [List.mem_map] at hseg2
    obtain ⟨v, hv, hveq⟩ := hseg2
    rw [← hveq]
    exact amp_not_mem_encodeSeg e.1 v (hsortedKeys e he)
  have hsegs_ne : (((youTubeSearchRequest s p).query.mergeSort
      (fun a b => a.1 ≤ b.1)).flatMap
      (fun e => e.2.map (fun v => encodeSeg e.1 v))) ≠ [] := by
    have hx : ("features", p.Features) ∈
        (youTubeSearchRequest s p).query.mergeSort (fun a b => a.1 ≤ b.1) := by
      apply List.mem_of_mem_filter (p := fun e => e.1 == "features")
      rw [show List.filter (fun e => (e.1 == "features"))
          ((youTubeSearchRequest s p).query.mergeSort (fun a b => a.1 ≤ b.1)) =
          entriesFor ((youTubeSearchRequest s p).query.mergeSort
            (fun a b => a.1 ≤ b.1)) "features" from rfl, hsortedF]
      simp
    obtain ⟨f, hf⟩ := List.exists_mem_of_ne_nil p.Features hne
    apply List.ne_nil_of_mem (a := encodeSeg "features" f)
    rw [List.mem_flatMap]
    refine ⟨("features", p.Features), hx, ?_⟩
    rw [List.mem_map]
    exact ⟨f, hf, rfl⟩
  rw [parseQuery, List.splitOn_intercalate _ '&' hamp hsegs_ne,
    parseFold_get_of_collected _ "features" (by rw [hcoll]; exact hne), hcoll]

/- ===== Remaining helper lemmas ===== -/

theorem unmarshalErrorResponse_ident (fs : List (String × JsonValue))
    (er : ErrorResponse)
    (h : unmarshalErrorResponse (JsonValue.obj fs) = some er) :
    getStrField fs "error" = some er.ErrorIdentifier := by
  simp only [unmarshalErrorResponse, bind, Option.bind_eq_some] at h
  obtain ⟨e, he, m, hm, d, hd, u, hu, heq⟩ := h
  simp only [pure, Option.some_inj] at heq
  rw [he, ← heq]

theorem apiKey_foldl_invariant (opts : List ConfigOption) (c : Config)
    (h : ∀ o ∈ opts, ∀ k, o ≠ ConfigOption.WithAPIKey k) :
    (opts.foldl applyOption c).apiKey = c.apiKey := by
  induction opts generalizing c with
  | nil => rfl
  | cons o rest ih =>
      rw [List.foldl_cons, ih _ (fun x hx => h x (by simp [hx]))]
      cases o with
      | WithAPIKey k => exact absurd rfl (h (ConfigOption.WithAPIKey k) (by simp) k)
      | WithTimeout t => rfl
      | WithClient cl => rfl
      | WithBaseURL u => rfl

/- ===== Verified claims ===== -/

/-- C1: for a transcript-fetch exchange with status < 400 whose body is a
valid JSON object, whenever a `Transcript` is returned it is the
Asynchronous variant (Async set, Sync nil) exactly when the object has a
`jobId` key and the Synchronous variant (Sync set, Async nil) otherwise;
in both cases exactly one variant is set, never both, never neither. -/
theorem C1_transcript_variant_discrimination (resp : Response)
    (fs : List (String × JsonValue)) (t : Transcript)
    (hstatus : resp.StatusCode < 400)
    (hbody : resp.body = some (JsonValue.obj fs))
    (hok : transcriptResponse resp = Except.ok t) :
    (jHasKey fs "jobId" = true → t.Async.isSome ∧ t.Sync = none) ∧
    (jHasKey fs "jobId" = false → t.Sync.isSome ∧ t.Async = none) ∧
    (t.Sync.isSome ↔ ¬ t.Async.isSome) := by
  have hraw : handleRawResponse resp =
      Except.ok (some (JsonValue.obj fs)) := by
    unfold handleRawResponse
    rw [if_neg (by omega), hbody]
  unfold transcriptResponse at hok
  rw [hraw] at hok
  simp only [unmarshalRawMap] at hok
  cases h : jHasKey fs "jobId" with
  | true =>
      rw [h] at hok
      simp only [if_true] at hok
      cases ha : unmarshalAsyncTranscript (JsonValue.obj fs) with
      | none => rw [ha] at hok; exact absurd hok (by simp)
      | some a =>
          rw [ha] at hok
          simp only [Except.ok.injEq] at hok
          subst hok
          refine ⟨fun _ => ⟨rfl, rfl⟩, fun hcontra => ?_, by simp⟩
          simp at hcontra
  | false =>
      rw [h] at hok
      simp only [Bool.false_eq_true, if_false] at hok
      cases hs : unmarshalSyncTranscript (JsonValue.obj fs) with
      | none => rw [hs] at hok; exact absurd hok (by simp)
      | some sy =>
          rw [hs] at hok
          simp only [Except.ok.injEq] at hok
          subst hok
          refine ⟨fun hcontra => ?_, fun _ => ⟨rfl, rfl⟩, by simp⟩
          simp at hcontra

/-- C1 witness: a 200 exchange with body containing a `jobId` key produces
the Asynchronous variant. -/
theorem C1_transcript_variant_discrimination_witness :
    ((200 : Nat) < 400) ∧
    ((jHasKey [("jobId", JsonValue.str "job-abc-123")] "jobId" = true →
        (Transcript.mk none (some ⟨"job-abc-123"⟩)).Async.isSome ∧
          (Transcript.mk none (some ⟨"job-abc-123"⟩)).Sync = none) ∧
      (jHasKey [("jobId", JsonValue.str "job-abc-123")] "jobId" = false →
        (Transcript.mk none (some ⟨"job-abc-123"⟩)).Sync.isSome ∧
          (Transcript.mk none (some ⟨"job-abc-123"⟩)).Async = none) ∧
      ((Transcript.mk none (some ⟨"job-abc-123"⟩)).Sync.isSome ↔
        ¬ (Transcript.mk none (some ⟨"job-abc-123"⟩)).Async.isSome)) :=
  ⟨by decide,
    C1_transcript_variant_discrimination
      ⟨200, some (JsonValue.obj [("jobId", JsonValue.str "job-abc-123")])⟩
      [("jobId", JsonValue.str "job-abc-123")]
      (Transcript.mk none (some ⟨"job-abc-123"⟩))
      (by decide) rfl rfl⟩

/-- C2: for any completed exchange with status ≥ 400 whose JSON body decodes
as the structured error shape, every endpoint (the shared generic handler
with any decoder, and the transcript fetch) returns the typed error, whose
identifier equals the body's `error` field exactly, for each of the eight
defined identifiers; a success value is never returned. -/
theorem C2_error_identifier_exact {T : Type} (dec : JsonValue → Option T)
    (resp : Response) (fs : List (String × JsonValue)) (ident : String)
    (er : ErrorResponse)
    (hstatus : 400 ≤ resp.StatusCode)
    (hbody : resp.body = some (JsonValue.obj fs))
    (hident : ident ∈ errorIdentifiers)
    (hfield : jfind fs "error" = some (JsonValue.str ident))
    (hdec : unmarshalErrorResponse (JsonValue.obj fs) = some er) :
    er.ErrorIdentifier = ident ∧
    handleResponse dec resp = Except.error (SupaError.typed er) ∧
    transcriptResponse resp = Except.error (SupaError.typed er) := by
  have hraw : handleRawResponse resp = Except.error (SupaError.typed er) := by
    unfold handleRawResponse
    rw [if_pos hstatus, hbody]
    dsimp only
    rw [hdec]
  have hid : er.ErrorIdentifier = ident := by
    have := unmarshalErrorResponse_ident fs er hdec
    rw [getStrField, hfield] at this
    exact (Option.some_inj.mp this).symm
  refine ⟨hid, ?_, ?_⟩
  · unfold handleResponse
    rw [hraw]
  · unfold transcriptResponse
    rw [hraw]

/-- C2 witness: a 401 exchange with body
`{"error":"unauthorized","message":"bad key"}` yields the typed error with
identifier `unauthorized` from the generic handler and the transcript
handler. -/
theorem C2_error_identifier_exact_witness :
    (400 ≤ (401 : Nat)) ∧
    ("unauthorized" ∈ errorIdentifiers) ∧
    (ErrorResponse.mk "unauthorized" "bad key" "" "").ErrorIdentifier =
      "unauthorized" ∧
    handleResponse (fun _ => some (0 : Nat))
        ⟨401, some (JsonValue.obj
          [("error", JsonValue.str "unauthorized"),
           ("message", JsonValue.str "bad key")])⟩ =
      Except.error (SupaError.typed ⟨"unauthorized", "bad key", "", ""⟩) ∧
    transcriptResponse
        ⟨401, some (JsonValue.obj
          [("error", JsonValue.str "unauthorized"),
           ("message", JsonValue.str "bad key")])⟩ =
      Except.error (SupaError.typed ⟨"unauthorized", "bad key", "", ""⟩) := by
  have h := C2_error_identifier_exact (fun _ => some (0 : Nat))
    ⟨401, some (JsonValue.obj
      [("error", JsonValue.str "unauthorized"),
       ("message", JsonValue.str "bad key")])⟩
    [("error", JsonValue.str "unauthorized"),
     ("message", JsonValue.str "bad key")]
    "unauthorized" ⟨"unauthorized", "bad key", "", ""⟩
    (by decide) rfl (by decide) rfl rfl
  exact ⟨by decide, by decide, h.1, h.2.1, h.2.2⟩

/-- C3: for a completed exchange with status 502 whose body is not valid
JSON, the failure is the generic error with message exactly
`request failed with status 502` — for the raw handler, the generic handler
with any decoder, and the transcript handler; no body content is echoed and
no decode error is the primary error. -/
theorem C3_status502_plaintext_generic (resp : Response)
    (hstatus : resp.StatusCode = 502) (hbody : resp.body = none) :
    handleRawResponse resp =
      Except.error (SupaError.generic "request failed with status 502") ∧
    (∀ (T : Type) (dec : JsonValue → Option T),
      handleResponse dec resp =
        Except.error (SupaError.generic "request failed with status 502")) ∧
    transcriptResponse resp =
      Except.error (SupaError.generic "request failed with status 502") := by
  have hraw : handleRawResponse resp =
      Except.error (SupaError.generic "request failed with status 502") := by
    unfold handleRawResponse
    rw [hstatus, hbody]
    rfl
  refine ⟨hraw, fun T dec => ?_, ?_⟩
  · unfold handleResponse
    rw [hraw]
  · unfold transcriptResponse
    rw [hraw]

/-- C3 witness at the concrete exchange (502, plaintext body). -/
theorem C3_status502_plaintext_generic_witness :
    ((502 : Nat) = 502) ∧
    handleRawResponse ⟨502, none⟩ =
      Except.error (SupaError.generic "request failed with status 502") ∧
    transcriptResponse ⟨502, none⟩ =
      Except.error (SupaError.generic "request failed with status 502") := by
  have h := C3_status502_plaintext_generic ⟨502, none⟩ rfl rfl
  exact ⟨rfl, h.1, h.2.2⟩

/-- C4: a transcript-fetch call with `Mode` unset carries the query
parameter `mode=auto`; the parameter is present and non-empty. -/
theorem C4_mode_defaults_to_auto (s : Config) (p : TranscriptParams)
    (hm : p.Mode = "") :
    valuesGet (transcriptRequest s p).query "mode" = some ["auto"] := by
  unfold transcriptRequest
  dsimp only
  rw [hm]
  simp only [bne_self_eq_false, Bool.false_eq_true, if_false]
  rw [valuesGet_set_self]
  rfl

/-- C4 witness at a concrete call with `Mode` unset. -/
theorem C4_mode_defaults_to_auto_witness :
    ((TranscriptParams.mk "https://x" "" false 0 "").Mode = "") ∧
    valuesGet (transcriptRequest ⟨"key", BaseUrl, ⟨60, 0⟩⟩
        (TranscriptParams.mk "https://x" "" false 0 "")).query "mode" =
      some ["auto"] :=
  ⟨rfl, C4_mode_defaults_to_auto ⟨"key", BaseUrl, ⟨60, 0⟩⟩
    (TranscriptParams.mk "https://x" "" false 0 "") rfl⟩

/-- C5: when no API-key option is given the constructed configuration's key
is the `SUPADATA_API_KEY` environment value; when API-key options are given,
the key is the argument of the last one regardless of surrounding options
(options apply in caller order, last write wins, environment fills the
initial default only). -/
theorem C5_apikey_last_write_wins (env : String) :
    (∀ opts : List ConfigOption,
      (∀ o ∈ opts, ∀ k, o ≠ ConfigOption.WithAPIKey k) →
      (NewSupadata env opts).apiKey = env) ∧
    (∀ (l1 l2 : List ConfigOption) (k : String),
      (∀ o ∈ l2, ∀ k', o ≠ ConfigOption.WithAPIKey k') →
      (NewSupadata env (l1 ++ ConfigOption.WithAPIKey k :: l2)).apiKey = k) := by
  constructor
  · intro opts h
    exact apiKey_foldl_invariant opts _ h
  · intro l1 l2 k h
    unfold NewSupadata
    rw [List.foldl_append, List.foldl_cons]
    rw [apiKey_foldl_invariant l2 _ h]
    rfl

/-- C5 witness: the environment fills the default when no key option
appears, and the last key option wins over an earlier one across other
options. -/
theorem C5_apikey_last_write_wins_witness :
    ((∀ o ∈ [ConfigOption.WithTimeout 5], ∀ k,
        o ≠ ConfigOption.WithAPIKey k) ∧
      (NewSupadata "envkey" [ConfigOption.WithTimeout 5]).apiKey = "envkey") ∧
    ((∀ o ∈ [ConfigOption.WithTimeout 7], ∀ k',
        o ≠ ConfigOption.WithAPIKey k') ∧
      (NewSupadata "envkey"
        ([ConfigOption.WithAPIKey "first", ConfigOption.WithBaseURL "b"] ++
          ConfigOption.WithAPIKey "winner" ::
            [ConfigOption.WithTimeout 7])).apiKey = "winner") :=
  ⟨⟨by intro o ho k; fin_cases ho; simp,
      (C5_apikey_last_write_wins "envkey").1
      [ConfigOption.WithTimeout 5] (by intro o ho k; fin_cases ho; simp)⟩,
    ⟨by intro o ho k; fin_cases ho; simp,
      (C5_apikey_last_write_wins "envkey").2
      [ConfigOption.WithAPIKey "first", ConfigOption.WithBaseURL "b"]
      [ConfigOption.WithTimeout 7] "winner"
      (by intro o ho k; fin_cases ho; simp)⟩⟩

/-- C6: every request built by any of the nineteen endpoint operations
unconditionally carries the header `User-Agent: supadata-go/1.0.0` and the
header `x-api-key` with the configured API key. -/
theorem C6_default_headers_always_set (s : Config) (ep : Endpoint) :
    headerGet (buildRequest s ep).headers "User-Agent" =
        some "supadata-go/1.0.0" ∧
    headerGet (buildRequest s ep).headers "x-api-key" = some s.apiKey := by
  cases ep <;> try exact ⟨rfl, rfl⟩
  all_goals
    refine ⟨?_, ?_⟩ <;>
      (unfold buildRequest crawlResultRequest; dsimp only; split <;> rfl)

/-- C7: a crawl-poll request with skip 0 carries no `skip` query parameter
at all (its query string is empty of it), while skip 10 carries `skip=10`. -/
theorem C7_crawl_skip_boundary (s : Config) (jobId : String) :
    valuesGet (crawlResultRequest s jobId 0).query "skip" = none ∧
    valuesGet (crawlResultRequest s jobId 10).query "skip" = some ["10"] ∧
    (crawlResultRequest s jobId 0).rawQuery = [] ∧
    (crawlResultRequest s jobId 10).rawQuery = "skip=10".toList := by
  refine ⟨rfl, rfl, ?_, ?_⟩
  · have h0 : (crawlResultRequest s jobId 0).query = [] := rfl
    unfold Request.rawQuery
    rw [h0]
    unfold encodeValues
    rw [List.mergeSort_nil]
    rfl
  · have h10 : (crawlResultRequest s jobId 10).query =
        [("skip", ["10"])] := rfl
    unfold Request.rawQuery
    rw [h10]
    unfold encodeValues
    rw [List.mergeSort_singleton]
    decide

/-- C8: for any YouTube search call with a non-empty list of defined
feature flags, each flag is a separate repeated `features` query entry (the
whole list, in order, under one key), and parsing the encoded query string
back recovers the same list in the same order. -/
theorem C8_features_repeated_roundtrip (s : Config) (p : YouTubeSearchParams)
    (hne : p.Features ≠ [])
    (hfs : ∀ f ∈ p.Features, f ∈ youTubeSearchFeatures) :
    valuesGet (youTubeSearchRequest s p).query "features" = some p.Features ∧
    valuesGet (parseQuery ((youTubeSearchRequest s p).rawQuery)) "features" =
      some p.Features := by
  constructor
  · rw [valuesGet_eq_head_entriesFor, searchQuery_features_entries s p hne]
    rfl
  · exact searchQuery_roundtrip s p hne hfs

/-- C8 witness at the concrete flag list `["hd", "live"]`. -/
theorem C8_features_repeated_roundtrip_witness :
    ((["hd", "live"] : List String) ≠ []) ∧
    (∀ f ∈ (["hd", "live"] : List String), f ∈ youTubeSearchFeatures) ∧
    valuesGet (youTubeSearchRequest ⟨"key", BaseUrl, ⟨60, 0⟩⟩
        (YouTubeSearchParams.mk "cats" "" "" "" "" ["hd", "live"] 0 "")).query
        "features" = some ["hd", "live"] ∧
    valuesGet (parseQuery ((youTubeSearchRequest ⟨"key", BaseUrl, ⟨60, 0⟩⟩
        (YouTubeSearchParams.mk "cats" "" "" "" "" ["hd", "live"] 0
          "")).rawQuery)) "features" = some ["hd", "live"] := by
  have h := C8_features_repeated_roundtrip ⟨"key", BaseUrl, ⟨60, 0⟩⟩
    (YouTubeSearchParams.mk "cats" "" "" "" "" ["hd", "live"] 0 "")
    (by decide) (by decide)
  exact ⟨by decide, by decide, h.1, h.2⟩

/-- C9: each configuration override mutates exactly one field: the API-key
option touches only the key, the base-URL option only the base URL, the
client option only replaces the transport handle, and the timeout option
only the transport's timeout field. -/
theorem C9_options_frame_conditions (c : Config) (k : String) (t : Int)
    (cl : HttpClient) (u : String) :
    (applyOption c (ConfigOption.WithAPIKey k)).apiKey = k ∧
    (applyOption c (ConfigOption.WithAPIKey k)).baseURL = c.baseURL ∧
    (applyOption c (ConfigOption.WithAPIKey k)).client = c.client ∧
    (applyOption c (ConfigOption.WithBaseURL u)).baseURL = u ∧
    (applyOption c (ConfigOption.WithBaseURL u)).apiKey = c.apiKey ∧
    (applyOption c (ConfigOption.WithBaseURL u)).client = c.client ∧
    (applyOption c (ConfigOption.WithClient cl)).client = cl ∧
    (applyOption c (ConfigOption.WithClient cl)).apiKey = c.apiKey ∧
    (applyOption c (ConfigOption.WithClient cl)).baseURL = c.baseURL ∧
    (applyOption c (ConfigOption.WithTimeout t)).client.Timeout = t ∧
    (applyOption c (ConfigOption.WithTimeout t)).client.Transport =
      c.client.Transport ∧
    (applyOption c (ConfigOption.WithTimeout t)).apiKey = c.apiKey ∧
    (applyOption c (ConfigOption.WithTimeout t)).baseURL = c.baseURL :=
  ⟨rfl, rfl, rfl, rfl, rfl, rfl, rfl, rfl, rfl, rfl, rfl, rfl, rfl⟩

/-- C10: for status ≥ 400, any JSON body that unmarshals into the error
shape — including `{}` and `null`, whose absent fields decode to empty
strings — yields the typed error; the generic status-message error arises
exactly when the unmarshal fails. -/
theorem C10_empty_error_body_still_typed (resp : Response)
    (hstatus : 400 ≤ resp.StatusCode) :
    (∀ j er, resp.body = some j → unmarshalErrorResponse j = some er →
      handleRawResponse resp = Except.error (SupaError.typed er)) ∧
    (∀ j, resp.body = some j → unmarshalErrorResponse j = none →
      handleRawResponse resp = Except.error (SupaError.generic
        ("request failed with status " ++ toString resp.StatusCode))) ∧
    (resp.body = some (JsonValue.obj []) →
      handleRawResponse resp =
        Except.error (SupaError.typed ⟨"", "", "", ""⟩)) ∧
    (resp.body = some JsonValue.null →
      handleRawResponse resp =
        Except.error (SupaError.typed ⟨"", "", "", ""⟩)) := by
  refine ⟨?_, ?_, ?_, ?_⟩
  · intro j er hbody hdec
    unfold handleRawResponse
    rw [if_pos hstatus, hbody]
    dsimp only
    rw [hdec]
  · intro j hbody hdec
    unfold handleRawResponse
    rw [if_pos hstatus, hbody]
    dsimp only
    rw [hdec]
  · intro hbody
    unfold handleRawResponse
    rw [if_pos hstatus, hbody]
    rfl
  · intro hbody
    unfold handleRawResponse
    rw [if_pos hstatus, hbody]
    rfl

/-- C10 witness: a 400 exchange with body `{}` yields the typed error with
all fields empty, and one with a non-object JSON body yields the generic
status-message error. -/
theorem C10_empty_error_body_still_typed_witness :
    (400 ≤ (400 : Nat)) ∧
    handleRawResponse ⟨400, some (JsonValue.obj [])⟩ =
      Except.error (SupaError.typed ⟨"", "", "", ""⟩) ∧
    handleRawResponse ⟨400, some JsonValue.null⟩ =
      Except.error (SupaError.typed ⟨"", "", "", ""⟩) ∧
    handleRawResponse ⟨400, some (JsonValue.num 7)⟩ =
      Except.error (SupaError.generic "request failed with status 400") := by
  refine ⟨by decide, ?_, ?_, ?_⟩
  · exact (C10_empty_error_body_still_typed ⟨400, some (JsonValue.obj [])⟩
      (by decide)).2.2.1 rfl
  · exact (C10_empty_error_body_still_typed ⟨400, some JsonValue.null⟩
      (by decide)).2.2.2 rfl
  · exact (C10_empty_error_body_still_typed ⟨400, some (JsonValue.num 7)⟩
      (by decide)).2.1 (JsonValue.num 7) rfl rfl
